import Mathlib

/-!
Shallow embedding of the gewe-openclaw inbound pipeline: the webhook
idempotency cache and `onMessage` handler (src/monitor.ts), the download
queue (src/download-queue.ts), the policy gate helpers (src/policy.ts),
silk detection and the inbound handler gates (src/inbound.ts), thumbnail
normalization (send module), the rust-silk installer, and the media HTTP
server.  JS `Map<string, number>` values are modelled as association lists,
JS numbers as `Nat`/`Int` (`Rat` for `Math.random()`), buffers as `List Nat`
of byte values, and nullable values as `Option`.
-/

namespace Gewe

/-! ### Generic string helpers (JS `String.prototype` operations) -/

/-- Character-list prefix test (used to model JS `startsWith`/`includes`). -/
def listIsPrefix : List Char → List Char → Bool
  | [], _ => true
  | _ :: _, [] => false
  | a :: as, b :: bs => a == b && listIsPrefix as bs

/-- Substring occurrence test on character lists. -/
def listIsSubstr (needle : List Char) : List Char → Bool
  | [] => needle.isEmpty
  | c :: rest => listIsPrefix needle (c :: rest) || listIsSubstr needle rest

/-- JS `hay.includes(needle)`. -/
def strContains (hay needle : String) : Bool :=
  listIsSubstr needle.toList hay.toList

/-- First index of `needle` in `hay` (JS `hay.indexOf(needle)` for a found
occurrence; `none` models `-1`). -/
def listFindSub (needle : List Char) : List Char → Nat → Option Nat
  | [], i => if needle.isEmpty then some i else none
  | c :: rest, i =>
    if listIsPrefix needle (c :: rest) then some i else listFindSub needle rest (i + 1)

def strIndexOf (hay needle : String) : Option Nat :=
  listFindSub needle.toList hay.toList 0

/-- JS `toLowerCase` (ASCII; all inputs in this development are ASCII). -/
def strToLower (s : String) : String := String.mk (s.toList.map Char.toLower)

/-- JS `s.startsWith(p)`. -/
def strStartsWith (s p : String) : Bool := listIsPrefix p.toList s.toList

/-- JS `s.endsWith(p)`. -/
def strEndsWith (s p : String) : Bool := listIsPrefix p.toList.reverse s.toList.reverse

/-- JS `s.trim()` (ASCII whitespace). -/
def strTrim (s : String) : String :=
  String.mk (((s.toList.dropWhile Char.isWhitespace).reverse.dropWhile
    Char.isWhitespace).reverse)

/-- Split a character list at every occurrence of `sep` (JS `split`). -/
def splitOnChar (sep : Char) : List Char → List (List Char)
  | [] => [[]]
  | c :: rest =>
    let groups := splitOnChar sep rest
    if c == sep then [] :: groups
    else
      match groups with
      | [] => [[c]]
      | g :: gs => (c :: g) :: gs

/-! ### Association-list model of JS `Map` -/

abbrev SeenMap := List (String × Nat)

def alistGet {α : Type} (l : List (String × α)) (k : String) : Option α :=
  match l.find? (fun e => e.1 == k) with
  | some e => some e.2
  | none => none

def alistSet {α : Type} (k : String) (v : α) : List (String × α) → List (String × α)
  | [] => [(k, v)]
  | e :: t => if e.1 == k then (k, v) :: t else e :: alistSet k v t

def alistRemove {α : Type} (k : String) (l : List (String × α)) : List (String × α) :=
  l.filter (fun e => e.1 != k)

/-! ### Idempotency cache (src/monitor.ts lines 22-40) -/

/-- `DEDUPE_TTL_MS = 12 * 60 * 60 * 1000`. -/
def DEDUPE_TTL_MS : Nat := 12 * 60 * 60 * 1000

/-- `cleanupSeen`: delete every entry with `now - ts > DEDUPE_TTL_MS`
(keep exactly those with `now - ts <= TTL`; `Nat` subtraction truncates,
matching the JS comparison for timestamps not in the future). -/
def cleanupSeen (now : Nat) (s : SeenMap) : SeenMap :=
  s.filter (fun e => now - e.2 ≤ DEDUPE_TTL_MS)

/-- `SEEN_MESSAGES.has(key)`. -/
def seenHas (s : SeenMap) (k : String) : Bool :=
  s.any (fun e => e.1 == k)

/-- `SEEN_MESSAGES.set(key, now)` (replace existing entry or append). -/
def seenSet (k : String) (v : Nat) : SeenMap → SeenMap
  | [] => [(k, v)]
  | e :: t => if e.1 == k then (k, v) :: t else e :: seenSet k v t

/-- `isDuplicate(key)`: cleanup, then check-and-insert.  Returns the
boolean result together with the updated module-level map. -/
def isDuplicate (key : String) (now : Nat) (s : SeenMap) : Bool × SeenMap :=
  let s' := cleanupSeen now s
  if seenHas s' key then (true, s') else (false, seenSet key now s')

/-! ### Inbound message record and the `onMessage` handler
(src/monitor.ts lines 131-167 and 289-304) -/

structure GeweInboundMessage where
  messageId : String
  newMessageId : String
  appId : String
  botWxid : String
  fromId : String
  toId : String
  senderId : String
  senderName : Option String
  text : String
  msgType : Int
  xml : String
  timestamp : Int
  isGroupChat : Bool
deriving Repr, DecidableEq

/-- The dedupe key built in `onMessage`: `` `${message.appId}:${message.newMessageId}` ``. -/
def dedupeKey (m : GeweInboundMessage) : String :=
  m.appId ++ ":" ++ m.newMessageId

/-- `message.fromId === message.botWxid || message.senderId === message.botWxid`. -/
def isSelfMessage (m : GeweInboundMessage) : Bool :=
  m.fromId == m.botWxid || m.senderId == m.botWxid

inductive OnMessageOutcome
  | droppedSelf
  | droppedDuplicate
  | invoked
deriving Repr, DecidableEq

/-- One `onMessage` callback invocation: self filter, then dedupe check,
then `handleGeweInbound` (`invoked`). -/
def onMessageStep (m : GeweInboundMessage) (now : Nat) (s : SeenMap) :
    OnMessageOutcome × SeenMap :=
  if isSelfMessage m then (.droppedSelf, s)
  else
    let r := isDuplicate (dedupeKey m) now s
    if r.1 then (.droppedDuplicate, r.2) else (.invoked, r.2)

/-- Sequential submissions through `onMessage`, threading the module-level
`SEEN_MESSAGES` map. -/
def runOnMessages : List (GeweInboundMessage × Nat) → SeenMap →
    List OnMessageOutcome × SeenMap
  | [], s => ([], s)
  | (m, t) :: rest, s =>
    let r := onMessageStep m t s
    let rr := runOnMessages rest r.2
    (r.1 :: rr.1, rr.2)

/-! ### Payload normalizer (src/monitor.ts lines 97-167) -/

structure GeweCallbackData where
  FromUserName : Option String
  ToUserName : Option String
  MsgType : Option Int
  Content : Option String
  MsgId : Option Int
  NewMsgId : Option Int
  CreateTime : Option Int
  PushContent : Option String
deriving Repr, DecidableEq

structure GeweCallbackPayload where
  Appid : Option String
  Wxid : Option String
  Data : Option GeweCallbackData
deriving Repr, DecidableEq

/-- `splitGroupContent(raw)`: split on the first `":\n"` marker; a marker at a
positive index with a nonempty trimmed sender yields `(sender, body)`. -/
def splitGroupContent (raw : String) : Option String × String :=
  match strIndexOf raw ":\n" with
  | some index =>
    if index > 0 then
      let sender := strTrim (raw.take index)
      if sender ≠ "" then (some sender, raw.drop (index + 2)) else (none, raw)
    else (none, raw)
  | none => (none, raw)

/-- `resolveSenderName(pushContent)`: name before the first `" : "` or `": "`
separator at a positive index, trimmed, empty → `undefined`. -/
def resolveSenderName (pushContent : Option String) : Option String :=
  let value := strTrim (pushContent.getD "")
  if value = "" then none
  else
    match strIndexOf value " : " with
    | some index =>
      if index > 0 then
        let name := strTrim (value.take index)
        if name = "" then none else some name
      else
        match strIndexOf value ": " with
        | some altIndex =>
          if altIndex > 0 then
            let name := strTrim (value.take altIndex)
            if name = "" then none else some name
          else none
        | none => none
    | none =>
      match strIndexOf value ": " with
      | some altIndex =>
        if altIndex > 0 then
          let name := strTrim (value.take altIndex)
          if name = "" then none else some name
        else none
      | none => none

/-- `payloadToInboundMessage(payload)`.  `now` models `Date.now()` used when
`CreateTime` is absent or zero. -/
def payloadToInboundMessage (payload : GeweCallbackPayload) (now : Int) :
    Option GeweInboundMessage :=
  let appId := strTrim (payload.Appid.getD "")
  let botWxid := strTrim (payload.Wxid.getD "")
  match payload.Data with
  | none => none
  | some data =>
    if appId = "" ∨ botWxid = "" then none
    else
      let fromId := strTrim (data.FromUserName.getD "")
      let toId := strTrim (data.ToUserName.getD "")
      let msgType := data.MsgType.getD (-1)
      let content := data.Content.getD ""
      let msgId := data.MsgId.getD (data.NewMsgId.getD 0)
      let newMsgId := data.NewMsgId.getD (data.MsgId.getD 0)
      let createTime := data.CreateTime.getD 0
      let timestamp := if createTime ≠ 0 then createTime * 1000 else now
      if fromId = "" ∨ toId = "" ∨ msgType < 0 then none
      else
        let isGroupChat := strEndsWith fromId "@chatroom" || strEndsWith toId "@chatroom"
        let groupParsed := if isGroupChat then splitGroupContent content else (none, content)
        let senderId := (if isGroupChat then groupParsed.1 else some fromId).getD fromId
        let text := strTrim groupParsed.2
        some
          { messageId := toString msgId
            newMessageId := toString newMsgId
            appId := appId
            botWxid := botWxid
            fromId := fromId
            toId := toId
            senderId := senderId
            senderName := resolveSenderName data.PushContent
            text := text
            msgType := msgType
            xml := text
            timestamp := timestamp
            isGroupChat := isGroupChat }

/-! ### Download queue (src/download-queue.ts) -/

/-- A queued job; `id` stands for the identity of the `run` closure. -/
structure GeweDownloadJob where
  key : String
  id : Nat
deriving Repr, DecidableEq

structure DQState where
  queue : List GeweDownloadJob
  seen : SeenMap
  minDelayMs : Int
  maxDelayMs : Int
deriving Repr, DecidableEq

/-- `cleanup()` on the queue's private `seen` map (same TTL policy as the
webhook cache). -/
def dqCleanup (now : Nat) (s : DQState) : DQState :=
  { s with seen := cleanupSeen now s.seen }

/-- `enqueue(job)`: cleanup, reject if the key is still in `seen`, otherwise
record the key, append the job and return `true`. -/
def dqEnqueue (now : Nat) (job : GeweDownloadJob) (s : DQState) : Bool × DQState :=
  let s := dqCleanup now s
  if seenHas s.seen job.key then (false, s)
  else
    (true, { s with seen := seenSet job.key now s.seen, queue := s.queue ++ [job] })

def dqEnqueueAll : List (GeweDownloadJob × Nat) → DQState → DQState
  | [], s => s
  | (job, t) :: rest, s => dqEnqueueAll rest (dqEnqueue t job s).2

/-- `nextDelayMs()`: clamp the minimum at `0`, the maximum up to the minimum,
and draw `Math.floor(r * (max - min + 1)) + min` for `r = Math.random()`. -/
def nextDelayMs (minDelayMs maxDelayMs : Int) (r : ℚ) : Int :=
  let lo := max 0 minDelayMs
  let hi := max lo maxDelayMs
  if hi = lo then lo else ⌊r * ((hi : ℚ) - (lo : ℚ) + 1)⌋ + lo

/-- The worker loop (`run`): shift jobs off the queue in order, sleeping
`nextDelayMs()` before each; returns the (delay, job) executions in order.
`rands` supplies the successive `Math.random()` draws. -/
def dqDrainAux (minDelayMs maxDelayMs : Int) :
    List GeweDownloadJob → List ℚ → List (Int × GeweDownloadJob)
  | [], _ => []
  | job :: rest, rands =>
    (nextDelayMs minDelayMs maxDelayMs (rands.headD 0), job) ::
      dqDrainAux minDelayMs maxDelayMs rest rands.tail

def dqDrain (s : DQState) (rands : List ℚ) : List (Int × GeweDownloadJob) :=
  dqDrainAux s.minDelayMs s.maxDelayMs s.queue rands

/-! ### Policy gate helpers (src/policy.ts) -/

/-- The channel alias markers stripped by `CHANNEL_PREFIX_REGEX`
(alternation order of the regex; input is already lowercased when
`normalizeAllowEntry` applies it). -/
def CHANNEL_ALIAS_MARKERS : List String :=
  ["gewe-openclaw:", "gewe:", "wechat:", "wx:"]

def stripChannelAlias (s : String) : String :=
  match CHANNEL_ALIAS_MARKERS.find? (fun p => strStartsWith s p) with
  | some p => s.drop p.length
  | none => s

/-- `normalizeAllowEntry(raw)`: trim, lowercase, strip channel alias marker. -/
def normalizeAllowEntry (raw : String) : String :=
  stripChannelAlias (strToLower (strTrim raw))

/-- `normalizeGeweAllowlist(values)` (values already stringified). -/
def normalizeGeweAllowlist (values : Option (List String)) : List String :=
  ((values.getD []).map normalizeAllowEntry).filter (fun s => s ≠ "")

structure AllowlistMatch where
  allowed : Bool
  matchKey : Option String := none
  matchSource : Option String := none
deriving Repr, DecidableEq

/-- `resolveGeweAllowlistMatch`: wildcard, then sender id, then display name. -/
def resolveGeweAllowlistMatch (allowFrom : Option (List String))
    (senderId : String) (senderName : Option String) : AllowlistMatch :=
  let af := normalizeGeweAllowlist allowFrom
  if af.isEmpty then { allowed := false }
  else if af.contains "*" then
    { allowed := true, matchKey := some "*", matchSource := some "wildcard" }
  else
    let sid := normalizeAllowEntry senderId
    if af.contains sid then
      { allowed := true, matchKey := some sid, matchSource := some "id" }
    else
      let sn := match senderName with
        | some n => if n ≠ "" then normalizeAllowEntry n else ""
        | none => ""
      if sn ≠ "" && af.contains sn then
        { allowed := true, matchKey := some sn, matchSource := some "name" }
      else { allowed := false }

structure NestedAllowlistParams where
  outerConfigured : Bool
  outerMatched : Bool
  innerConfigured : Bool
  innerMatched : Bool
deriving Repr, DecidableEq

/-- Modelled from the spec: `resolveNestedAllowlistDecision` is imported from
the external openclaw plugin-sdk and its source is not part of this
repository.  The spec's nested-allowlist gating (§4.3 step 3: a configured
level must match, an unconfigured level does not restrict) gives each level
veto power: a configured outer level must match and a configured inner level
must match. -/
def resolveNestedAllowlistDecision (p : NestedAllowlistParams) : Bool :=
  (!p.outerConfigured || p.outerMatched) && (!p.innerConfigured || p.innerMatched)

structure GroupAllowResult where
  allowed : Bool
  outerMatch : AllowlistMatch
  innerMatch : AllowlistMatch
deriving Repr, DecidableEq

/-- `resolveGeweGroupAllow`, parametrized by the sdk decision function so that
facts independent of its implementation can be stated. -/
def resolveGeweGroupAllowWith (nested : NestedAllowlistParams → Bool)
    (groupPolicy : String) (outerAllowFrom innerAllowFrom : Option (List String))
    (senderId : String) (senderName : Option String) : GroupAllowResult :=
  if groupPolicy = "disabled" then
    { allowed := false, outerMatch := { allowed := false }, innerMatch := { allowed := false } }
  else if groupPolicy = "open" then
    { allowed := true, outerMatch := { allowed := true }, innerMatch := { allowed := true } }
  else
    let outerAllow := normalizeGeweAllowlist outerAllowFrom
    let innerAllow := normalizeGeweAllowlist innerAllowFrom
    if outerAllow.isEmpty && innerAllow.isEmpty then
      { allowed := false, outerMatch := { allowed := false }, innerMatch := { allowed := false } }
    else
      let outerMatch := resolveGeweAllowlistMatch outerAllowFrom senderId senderName
      let innerMatch := resolveGeweAllowlistMatch innerAllowFrom senderId senderName
      let allowed := nested
        { outerConfigured := !outerAllow.isEmpty || !innerAllow.isEmpty
          outerMatched := if !outerAllow.isEmpty then outerMatch.allowed else true
          innerConfigured := !innerAllow.isEmpty
          innerMatched := innerMatch.allowed }
      { allowed := allowed, outerMatch := outerMatch, innerMatch := innerMatch }

def resolveGeweGroupAllow : String → Option (List String) → Option (List String) →
    String → Option String → GroupAllowResult :=
  resolveGeweGroupAllowWith resolveNestedAllowlistDecision

/-! ### Silk voice detection (src/inbound.ts `looksLikeSilkVoice`) -/

/-- `SILK_HEADER = "#!SILK_V3"`. -/
def SILK_HEADER : String := "#!SILK_V3"

/-- The UTF-8 bytes of `SILK_HEADER`; a 9-byte prefix decodes to the header
string exactly when its bytes are this ASCII sequence. -/
def silkMagicBytes : List Nat := [35, 33, 83, 73, 76, 75, 95, 86, 51]

/-- `looksLikeSilkVoice`: content-type substring hint, then filename
extension hint, then the 9-byte magic check. -/
def looksLikeSilkVoice (buffer : List Nat) (contentType fileName : Option String) : Bool :=
  let ct := strToLower (contentType.getD "")
  if strContains ct "silk" then true
  else
    let fn := strToLower (fileName.getD "")
    if strEndsWith fn ".silk" then true
    else if buffer.length < SILK_HEADER.length then false
    else buffer.take SILK_HEADER.length == silkMagicBytes

/-! ### Thumbnail normalization (send module `normalizeThumbBuffer`) -/

def LINK_THUMB_MAX_BYTES : Nat := 50 * 1024
def LINK_THUMB_MAX_SIDE : Nat := 320
def LINK_THUMB_QUALITY_STEPS : List Nat := [80, 70, 60, 50, 40]

/-- The (maxSide, quality) attempts in loop order:
`[320, 240, 200, 160] x [80, 70, 60, 50, 40]`. -/
def thumbPairs : List (Nat × Nat) :=
  ([LINK_THUMB_MAX_SIDE, 240, 200, 160]).flatMap
    (fun side => LINK_THUMB_QUALITY_STEPS.map (fun q => (side, q)))

/-- The resize loop: each iteration re-encodes the previous attempt
(`working = resized`), returning the first result within the byte budget,
else the final attempt.  `resize` stands for `core.media.resizeToJpeg`. -/
def thumbLoop (resize : List Nat → Nat → Nat → List Nat) :
    List Nat → List (Nat × Nat) → List Nat
  | working, [] => working
  | working, (side, quality) :: rest =>
    let resized := resize working side quality
    if resized.length ≤ LINK_THUMB_MAX_BYTES then resized
    else thumbLoop resize resized rest

/-- The successive attempt outputs the loop would produce (ignoring the
early return), for stating which attempt is returned. -/
def thumbAttempts (resize : List Nat → Nat → Nat → List Nat) :
    List Nat → List (Nat × Nat) → List (List Nat)
  | _, [] => []
  | working, (side, quality) :: rest =>
    let resized := resize working side quality
    resized :: thumbAttempts resize resized rest

/-- `params.contentType?.split(";")[0]?.trim()`. -/
def splitContentType (ct : String) : String :=
  strTrim (String.mk (ct.toList.takeWhile (fun c => c != ';')))

/-- `normalizeThumbBuffer`: pass small declared images through unchanged,
otherwise run the resize loop and label the result `image/jpeg`. -/
def normalizeThumbBuffer (resize : List Nat → Nat → Nat → List Nat)
    (buffer : List Nat) (contentType : Option String) : List Nat × String :=
  let ct := contentType.map splitContentType
  let passThrough := buffer.length ≤ LINK_THUMB_MAX_BYTES &&
    (match ct with
     | some c => c ≠ "" && strStartsWith c "image/"
     | none => false)
  if passThrough then (buffer, ct.getD "")
  else (thumbLoop resize buffer thumbPairs, "image/jpeg")

/-! ### Installer coordination (silk module `ensureRustSilkBinary`)

`ensureRustSilkBinary`'s cache section runs synchronously on the JS event
loop between two suspension points, so the resolved-path lookup, the
in-flight lookup and the registration of a new install promise form one
atomic step; promise completion (the `.then`/`.finally` handlers) is a
second atomic step.  `started` counts, per cache key, the install attempts
(network downloads) that were ever started. -/

structure InstallerState where
  resolvedPathCache : List (String × Option String)
  installCache : List (String × Nat)
  nextTaskId : Nat
  started : List (String × Nat)
deriving Repr, DecidableEq

def initInstaller : InstallerState :=
  { resolvedPathCache := [], installCache := [], nextTaskId := 0, started := [] }

def startedCount (s : InstallerState) (k : String) : Nat :=
  (alistGet s.started k).getD 0

inductive EnsureResult
  | cached (r : Option String)
  | joined (task : Nat)
  | started (task : Nat)
deriving Repr, DecidableEq

/-- The atomic cache section of `ensureRustSilkBinary` for a resolved cache
key: completed-result cache first, then the in-flight promise cache, else
register a fresh install task. -/
def ensureRustSilkBinaryStep (k : String) (s : InstallerState) :
    EnsureResult × InstallerState :=
  match alistGet s.resolvedPathCache k with
  | some r => (.cached r, s)
  | none =>
    match alistGet s.installCache k with
    | some t => (.joined t, s)
    | none =>
      let t := s.nextTaskId
      (.started t,
        { s with
          installCache := alistSet k t s.installCache
          nextTaskId := t + 1
          started := alistSet k (startedCount s k + 1) s.started })

/-- Completion of an install task: the promise's `.then` stores the result in
`resolvedPathCache` and its `.finally` removes the in-flight entry. -/
def completeInstall (k : String) (result : Option String) (s : InstallerState) :
    InstallerState :=
  { s with
    resolvedPathCache := alistSet k result s.resolvedPathCache
    installCache := alistRemove k s.installCache }

inductive InstallerEvent
  | call (k : String)
  | complete (k : String) (result : Option String)
deriving Repr, DecidableEq

def installerStep (s : InstallerState) : InstallerEvent → InstallerState
  | .call k => (ensureRustSilkBinaryStep k s).2
  | .complete k r =>
    if (alistGet s.installCache k).isSome then completeInstall k r s else s

def runInstaller (events : List InstallerEvent) : InstallerState :=
  events.foldl installerStep initInstaller

/-- Number of in-flight install entries for a key. -/
def inFlightCount (s : InstallerState) (k : String) : Nat :=
  (s.installCache.filter (fun e => e.1 == k)).length

/-! ### Installer download/verify/extract phase (silk module `installRustSilk`)

The effectful steps are supplied by an `InstallWorld` oracle; `Except`
results model a JS call that either returns or throws. -/

structure SilkInstallConfig where
  silkSha256 : Option String
  silkAllowUnverified : Option Bool
deriving Repr, DecidableEq

structure InstallWorld where
  binaryExists : Bool
  isLatest : Bool
  folder : String
  assetName : String
  binaryPath : String
  cleanupResult : Except String Unit
  mkdtempResult : Except String Unit
  downloadResult : Except String Unit
  manifestText : Option String
  assetSumText : Option String
  sha256Result : Except String String
  extractResult : Except String Unit
  findBinaryResult : Except String (Option Unit)
  installWriteResult : Except String Unit
deriving Repr

def isHexDigitChar (c : Char) : Bool :=
  c.isDigit || ('a' ≤ c && c ≤ 'f') || ('A' ≤ c && c ≤ 'F')

/-- One line of a checksum manifest against
`/^([a-f0-9]{64})\s+\*?(.+)$/i` with the captured name compared to
`assetName` after trimming.  (The deterministic parse below differs from
regex backtracking only when the captured name would trim to empty or be
the bare `*`, which cannot equal the fixed release asset names.) -/
def matchChecksumLine (line assetName : String) : Option String :=
  let cs := line.toList
  let hash := cs.take 64
  let rest := cs.drop 64
  if hash.length = 64 && hash.all isHexDigitChar then
    let ws := rest.takeWhile Char.isWhitespace
    if ws.isEmpty then none
    else
      let rest2 := rest.drop ws.length
      let rest3 := match rest2 with
        | '*' :: t => t
        | t => t
      if rest3.isEmpty then none
      else if strTrim (String.mk rest3) = assetName then
        some (strToLower (String.mk hash))
      else none
  else none

/-- `parseChecksum(contents, assetName)`: first matching line wins. -/
def parseChecksum (contents assetName : String) : Option String :=
  let lines := (splitOnChar '\n' contents.toList).map
    (fun cs => String.mk (match cs.reverse with
      | '\r' :: t => t.reverse
      | _ => cs))
  (lines.filterMap (fun l =>
    let trimmed := strTrim l
    if trimmed = "" then none else matchChecksumLine trimmed assetName)).head?

/-- `assetSum.trim().split(/\s+/)[0]` matched against `/^[a-f0-9]{64}$/i`. -/
def checksumFallback (assetSum : String) : Option String :=
  let tok := (strTrim assetSum).toList.takeWhile (fun c => !c.isWhitespace)
  if tok.length = 64 && tok.all isHexDigitChar then
    some (strToLower (String.mk tok))
  else none

/-- `resolveChecksum`: explicit configured hash, else the combined
`sha256.sum` manifest, else the per-asset `.sha256` file (with its bare-hash
fallback).  Fetch failures are caught and read as the empty string. -/
def resolveChecksum (cfg : SilkInstallConfig) (w : InstallWorld) : Option String :=
  if strTrim (cfg.silkSha256.getD "") ≠ "" then
    some (strToLower (strTrim (cfg.silkSha256.getD "")))
  else
    let sum := w.manifestText.getD ""
    let fromManifest := if sum ≠ "" then parseChecksum sum w.assetName else none
    match fromManifest with
    | some h => some h
    | none =>
      let assetSum := w.assetSumText.getD ""
      if assetSum ≠ "" then
        match parseChecksum assetSum w.assetName with
        | some h => some h
        | none => checksumFallback assetSum
      else none

/-- The body of `installRustSilk`'s `try` block: download, checksum
resolution and verification, extraction, binary search, copy/marker write,
and the superseded-version cleanup for resolved `latest` installs.
`Except.error` is a thrown JS exception. -/
def installRustSilkAttempt (cfg : SilkInstallConfig) (w : InstallWorld) :
    Except String (Option String) :=
  match w.downloadResult with
  | .error e => .error e
  | .ok _ =>
    let expectedHash := resolveChecksum cfg w
    if expectedHash = none ∧ cfg.silkAllowUnverified ≠ some true then
      .error "missing checksum for rust-silk download"
    else
      let checksumStep : Except String Unit :=
        match expectedHash with
        | some h =>
          match w.sha256Result with
          | .error e => .error e
          | .ok actual =>
            if actual ≠ h then .error "checksum mismatch" else .ok ()
        | none => .ok ()
      match checksumStep with
      | .error e => .error e
      | .ok _ =>
        match w.extractResult with
        | .error e => .error e
        | .ok _ =>
          match w.findBinaryResult with
          | .error e => .error e
          | .ok none => .error "rust-silk binary not found"
          | .ok (some _) =>
            match w.installWriteResult with
            | .error e => .error e
            | .ok _ =>
              if w.isLatest && w.folder ≠ "latest" then
                match w.cleanupResult with
                | .error e => .error e
                | .ok _ => .ok (some w.binaryPath)
              else .ok (some w.binaryPath)

/-- `installRustSilk`: `Except.error` is an exception propagating to the
caller; `Except.ok none` is the logged-and-swallowed failure result.  The
fast path (binary already installed, with its cleanup of superseded
versions) and `fs.mkdtemp` run **before** the `try`; everything from the
download to the marker write (`installRustSilkAttempt`) is inside it, its
exceptions caught and turned into `null`. -/
def installRustSilk (cfg : SilkInstallConfig) (w : InstallWorld) :
    Except String (Option String) :=
  if w.binaryExists then
    if w.isLatest && w.folder ≠ "latest" then
      match w.cleanupResult with
      | .ok _ => .ok (some w.binaryPath)
      | .error e => .error e
    else .ok (some w.binaryPath)
  else
    match w.mkdtempResult with
    | .error e => .error e
    | .ok _ =>
      match installRustSilkAttempt cfg w with
      | .ok r => .ok r
      | .error _ => .ok none

/-! ### Media HTTP server (media-server module) -/

/-- `isSafeMediaId(id)`. -/
def isSafeMediaId (id : String) : Bool :=
  if id = "" then false
  else if strContains id ".." then false
  else !strContains id "/" && !strContains id "\\"

structure MediaResponse where
  status : Nat
  streamed : Option String
deriving Repr, DecidableEq

/-- The media server request handler.  `decodeURI` models
`decodeURIComponent`, `statIsFile p` models `fs.stat(p)` (`none`: stat
threw; `some b`: `isFile()` returned `b`), `pathname` is the parsed URL
pathname (`none`: `req.url` missing). -/
def mediaHandler (decodeURI : String → String) (statIsFile : String → Option Bool)
    (basePath mediaBaseDir : String) (method : String) (pathname : Option String) :
    MediaResponse :=
  match pathname with
  | none => { status := 404, streamed := none }
  | some pn =>
    if method ≠ "GET" ∧ method ≠ "HEAD" then { status := 405, streamed := none }
    else if !strStartsWith pn (basePath ++ "/") then { status := 404, streamed := none }
    else
      let id := decodeURI (pn.drop (basePath.length + 1))
      if !isSafeMediaId id then { status := 400, streamed := none }
      else
        let filePath := mediaBaseDir ++ "/" ++ id
        match statIsFile filePath with
        | none => { status := 404, streamed := none }
        | some false => { status := 404, streamed := none }
        | some true =>
          { status := 200
            streamed := if method = "HEAD" then none else some filePath }

/-! ## Lemmas about the idempotency cache -/

theorem mem_cleanupSeen {now : Nat} {s : SeenMap} {e : String × Nat} :
    e ∈ cleanupSeen now s ↔ e ∈ s ∧ now - e.2 ≤ DEDUPE_TTL_MS := by
  simp [cleanupSeen, List.mem_filter]

theorem seenHas_of_mem {s : SeenMap} {k : String} {v : Nat} (h : (k, v) ∈ s) :
    seenHas s k = true := by
  simp only [seenHas, List.any_eq_true]
  exact ⟨(k, v), h, by simp⟩

theorem mem_seenSet (k : String) (v : Nat) (s : SeenMap) : (k, v) ∈ seenSet k v s := by
  induction s with
  | nil => simp [seenSet]
  | cons e t ih =>
    simp only [seenSet]
    by_cases h : e.1 == k
    · simp [h]
    · simp only [h]
      simp only [Bool.false_eq_true, if_false, List.mem_cons]
      exact Or.inr ih

theorem runOnMessages_all_dup (k : String) (t₀ : Nat) :
    ∀ (msgs : List (GeweInboundMessage × Nat)) (s : SeenMap),
      (∀ p ∈ msgs, dedupeKey p.1 = k ∧ isSelfMessage p.1 = false ∧
        p.2 - t₀ ≤ DEDUPE_TTL_MS) →
      (k, t₀) ∈ s →
      (runOnMessages msgs s).1 = msgs.map (fun _ => OnMessageOutcome.droppedDuplicate)
  | [], _, _, _ => rfl
  | (m, t) :: rest, s, h, hmem => by
    obtain ⟨hkey, hself, htime⟩ := h (m, t) (List.mem_cons_self _ _)
    have hmem' : (k, t₀) ∈ cleanupSeen t s :=
      mem_cleanupSeen.mpr ⟨hmem, htime⟩
    have hhas : seenHas (cleanupSeen t s) (dedupeKey m) = true := by
      rw [hkey]; exact seenHas_of_mem hmem'
    have hstep : onMessageStep m t s = (.droppedDuplicate, cleanupSeen t s) := by
      simp [onMessageStep, hself, isDuplicate, hhas]
    simp only [runOnMessages, hstep, List.map_cons]
    have ih := runOnMessages_all_dup k t₀ rest (cleanupSeen t s)
      (fun p hp => h p (List.mem_cons_of_mem _ hp)) hmem'
    simp [ih]

theorem runOnMessages_all_self :
    ∀ (msgs : List (GeweInboundMessage × Nat)) (s : SeenMap),
      (∀ p ∈ msgs, isSelfMessage p.1 = true) →
      runOnMessages msgs s = (msgs.map (fun _ => OnMessageOutcome.droppedSelf), s)
  | [], _, _ => rfl
  | (m, t) :: rest, s, h => by
    have hself := h (m, t) (List.mem_cons_self _ _)
    have hstep : onMessageStep m t s = (.droppedSelf, s) := by
      simp [onMessageStep, hself]
    have ih := runOnMessages_all_self rest s (fun p hp => h p (List.mem_cons_of_mem _ hp))
    simp [runOnMessages, hstep, ih]

/-- **C1.** Idempotency cache: `isDuplicate` purges exactly the entries older
than 12 hours, returns `true` leaving the (purged) map unchanged when the key
is present, and otherwise inserts `(key, now)` and returns `false`;
consequently, for a `(appId, newMessageId)` pair submitted repeatedly within
12 hours, only the first submission invokes `handleGeweInbound` (the first is
`invoked` when the message is not a self-message, and every later submission
is dropped without invoking downstream processing). -/
theorem claim_C1 :
    (∀ (now : Nat) (s : SeenMap) (e : String × Nat),
      e ∈ cleanupSeen now s ↔ e ∈ s ∧ now - e.2 ≤ DEDUPE_TTL_MS) ∧
    (∀ (key : String) (now : Nat) (s : SeenMap),
      seenHas (cleanupSeen now s) key = true →
      isDuplicate key now s = (true, cleanupSeen now s)) ∧
    (∀ (key : String) (now : Nat) (s : SeenMap),
      seenHas (cleanupSeen now s) key = false →
      isDuplicate key now s = (false, seenSet key now (cleanupSeen now s))) ∧
    (∀ (m : GeweInboundMessage) (t₀ : Nat) (ts : List Nat) (s₀ : SeenMap),
      seenHas (cleanupSeen t₀ s₀) (dedupeKey m) = false →
      (∀ t ∈ ts, t - t₀ ≤ DEDUPE_TTL_MS) →
      (runOnMessages ((m, t₀) :: ts.map (fun t => (m, t))) s₀).1 =
        (if isSelfMessage m then OnMessageOutcome.droppedSelf else .invoked) ::
          ts.map (fun _ =>
            if isSelfMessage m then OnMessageOutcome.droppedSelf
            else .droppedDuplicate)) := by
  refine ⟨fun _ _ _ => mem_cleanupSeen, ?_, ?_, ?_⟩
  · intro key now s h
    simp [isDuplicate, h]
  · intro key now s h
    simp [isDuplicate, h]
  · intro m t₀ ts s₀ hfresh htimes
    by_cases hself : isSelfMessage m = true
    · have hall : ∀ p ∈ (m, t₀) :: ts.map (fun t => (m, t)),
          isSelfMessage p.1 = true := by
        intro p hp
        rcases List.mem_cons.mp hp with h | h
        · rw [h]; exact hself
        · obtain ⟨t, _, rfl⟩ := List.mem_map.mp h
          exact hself
      rw [runOnMessages_all_self _ _ hall]
      simp only [hself, if_true, List.map_cons, List.map_map, Function.comp_def]
    · have hself' : isSelfMessage m = false := by
        cases h : isSelfMessage m
        · rfl
        · exact absurd h hself
      have hstep : onMessageStep m t₀ s₀ =
          (.invoked, seenSet (dedupeKey m) t₀ (cleanupSeen t₀ s₀)) := by
        simp [onMessageStep, hself', isDuplicate, hfresh]
      have hmem : (dedupeKey m, t₀) ∈ seenSet (dedupeKey m) t₀ (cleanupSeen t₀ s₀) :=
        mem_seenSet _ _ _
      have hrest := runOnMessages_all_dup (dedupeKey m) t₀
        (ts.map (fun t => (m, t)))
        (seenSet (dedupeKey m) t₀ (cleanupSeen t₀ s₀))
        (by
          intro p hp
          obtain ⟨t, ht, rfl⟩ := List.mem_map.mp hp
          exact ⟨rfl, hself', htimes t ht⟩)
        hmem
      simp only [runOnMessages, hstep, hself']
      simp only [hrest, List.map_map, Function.comp_def]
      simp [hself', List.map_const']

/-- Witness for C1: a concrete non-self message resubmitted 5 ms later is
dropped as a duplicate, while the first submission invokes downstream
processing. -/
theorem claim_C1_witness :
    (seenHas (cleanupSeen 0 [])
        (dedupeKey
          { messageId := "101", newMessageId := "101", appId := "app",
            botWxid := "bot", fromId := "wxid_u", toId := "bot",
            senderId := "wxid_u", senderName := none, text := "hi",
            msgType := 1, xml := "hi", timestamp := 0,
            isGroupChat := false }) = false) ∧
    (runOnMessages
        [({ messageId := "101", newMessageId := "101", appId := "app",
            botWxid := "bot", fromId := "wxid_u", toId := "bot",
            senderId := "wxid_u", senderName := none, text := "hi",
            msgType := 1, xml := "hi", timestamp := 0,
            isGroupChat := false }, 0),
         ({ messageId := "101", newMessageId := "101", appId := "app",
            botWxid := "bot", fromId := "wxid_u", toId := "bot",
            senderId := "wxid_u", senderName := none, text := "hi",
            msgType := 1, xml := "hi", timestamp := 0,
            isGroupChat := false }, 5)] []).1 =
      [OnMessageOutcome.invoked, OnMessageOutcome.droppedDuplicate] := by
  constructor
  · decide
  · have h := claim_C1.2.2.2
      { messageId := "101", newMessageId := "101", appId := "app",
        botWxid := "bot", fromId := "wxid_u", toId := "bot",
        senderId := "wxid_u", senderName := none, text := "hi",
        msgType := 1, xml := "hi", timestamp := 0, isGroupChat := false }
      0 [5] [] (by decide) (by decide)
    exact h.trans (by decide)

theorem seenHas_seenSet (k : String) (v : Nat) (s : SeenMap) :
    seenHas (seenSet k v s) k = true :=
  seenHas_of_mem (mem_seenSet k v s)

/-- **C6 counterexample.**  A self-message (origin equal to the bot's own id)
is dropped by the self filter *without* touching the idempotency cache: the
claimed ordering (dedupe check-and-insert before the self-message filter)
does not hold, since after processing the dedupe map still lacks the
message's key. -/
theorem claim_C6_counterexample :
    (onMessageStep
        { messageId := "9", newMessageId := "9", appId := "app",
          botWxid := "bot", fromId := "bot", toId := "wxid_u",
          senderId := "bot", senderName := none, text := "hi",
          msgType := 1, xml := "hi", timestamp := 0,
          isGroupChat := false } 7 []).1 = OnMessageOutcome.droppedSelf ∧
    seenHas
        (onMessageStep
          { messageId := "9", newMessageId := "9", appId := "app",
            botWxid := "bot", fromId := "bot", toId := "wxid_u",
            senderId := "bot", senderName := none, text := "hi",
            msgType := 1, xml := "hi", timestamp := 0,
            isGroupChat := false } 7 []).2
        (dedupeKey
          { messageId := "9", newMessageId := "9", appId := "app",
            botWxid := "bot", fromId := "bot", toId := "wxid_u",
            senderId := "bot", senderName := none, text := "hi",
            msgType := 1, xml := "hi", timestamp := 0,
            isGroupChat := false }) = false := by
  exact ⟨by decide, by decide⟩

/-- **C6 (amended).**  Ordering of the inbound pipeline as implemented: the
self-message filter runs **first** and drops self-messages without consulting
or updating the idempotency cache; for non-self messages the dedupe
check-and-insert happens next, before `handleGeweInbound` is invoked (and
hence before the message-type allowlist and every other policy gate that
runs inside it), so a non-self message dropped by any of those later gates
has already consumed its dedupe entry. -/
theorem claim_C6 (m : GeweInboundMessage) (now : Nat) (s : SeenMap) :
    (isSelfMessage m = true → onMessageStep m now s = (.droppedSelf, s)) ∧
    (isSelfMessage m = false →
      seenHas (onMessageStep m now s).2 (dedupeKey m) = true ∧
      ((onMessageStep m now s).1 = .invoked ↔
        seenHas (cleanupSeen now s) (dedupeKey m) = false)) := by
  constructor
  · intro h
    simp [onMessageStep, h]
  · intro h
    by_cases hdup : seenHas (cleanupSeen now s) (dedupeKey m) = true
    · have hstep : onMessageStep m now s = (.droppedDuplicate, cleanupSeen now s) := by
        simp [onMessageStep, h, isDuplicate, hdup]
      rw [hstep]
      simp [hdup]
    · have hdup' : seenHas (cleanupSeen now s) (dedupeKey m) = false := by
        cases hh : seenHas (cleanupSeen now s) (dedupeKey m)
        · rfl
        · exact absurd hh hdup
      have hstep : onMessageStep m now s =
          (.invoked, seenSet (dedupeKey m) now (cleanupSeen now s)) := by
        simp [onMessageStep, h, isDuplicate, hdup']
      rw [hstep]
      exact ⟨seenHas_seenSet _ _ _, by simp [hdup']⟩

/-- Witness for C6 (amended): a concrete non-self message consumes its dedupe
entry and is handed to `handleGeweInbound`. -/
theorem claim_C6_witness :
    (isSelfMessage
        { messageId := "9", newMessageId := "9", appId := "app",
          botWxid := "bot", fromId := "wxid_u", toId := "bot",
          senderId := "wxid_u", senderName := none, text := "hi",
          msgType := 1, xml := "hi", timestamp := 0,
          isGroupChat := false } = false) ∧
    (seenHas
        (onMessageStep
          { messageId := "9", newMessageId := "9", appId := "app",
            botWxid := "bot", fromId := "wxid_u", toId := "bot",
            senderId := "wxid_u", senderName := none, text := "hi",
            msgType := 1, xml := "hi", timestamp := 0,
            isGroupChat := false } 3 []).2
        (dedupeKey
          { messageId := "9", newMessageId := "9", appId := "app",
            botWxid := "bot", fromId := "wxid_u", toId := "bot",
            senderId := "wxid_u", senderName := none, text := "hi",
            msgType := 1, xml := "hi", timestamp := 0,
            isGroupChat := false }) = true ∧
      ((onMessageStep
          { messageId := "9", newMessageId := "9", appId := "app",
            botWxid := "bot", fromId := "wxid_u", toId := "bot",
            senderId := "wxid_u", senderName := none, text := "hi",
            msgType := 1, xml := "hi", timestamp := 0,
            isGroupChat := false } 3 []).1 = .invoked ↔
        seenHas (cleanupSeen 3 [])
          (dedupeKey
            { messageId := "9", newMessageId := "9", appId := "app",
              botWxid := "bot", fromId := "wxid_u", toId := "bot",
              senderId := "wxid_u", senderName := none, text := "hi",
              msgType := 1, xml := "hi", timestamp := 0,
              isGroupChat := false }) = false)) :=
  ⟨by decide,
    (claim_C6
      { messageId := "9", newMessageId := "9", appId := "app",
        botWxid := "bot", fromId := "wxid_u", toId := "bot",
        senderId := "wxid_u", senderName := none, text := "hi",
        msgType := 1, xml := "hi", timestamp := 0,
        isGroupChat := false } 3 []).2 (by decide)⟩

/-- **C10.**  A webhook payload that passes validation but carries neither
`Data.MsgId` nor `Data.NewMsgId` still normalizes to a message (no failure)
with `messageId = "0"` and `newMessageId = "0"`, whose dedupe key is
`<appId>:0`; consequently, among messages with that shared key submitted
within 12 hours (and not filtered as self-messages), every one after the
first is discarded as a duplicate. -/
theorem claim_C10 :
    (∀ (p : GeweCallbackPayload) (data : GeweCallbackData) (now : Int) (mt : Int),
      p.Data = some data →
      strTrim (p.Appid.getD "") ≠ "" →
      strTrim (p.Wxid.getD "") ≠ "" →
      strTrim (data.FromUserName.getD "") ≠ "" →
      strTrim (data.ToUserName.getD "") ≠ "" →
      data.MsgType = some mt → ¬mt < 0 →
      data.MsgId = none → data.NewMsgId = none →
      (∃ m, payloadToInboundMessage p now = some m) ∧
      (payloadToInboundMessage p now).map
          (fun m => (m.messageId, m.newMessageId, dedupeKey m)) =
        some ("0", "0", strTrim (p.Appid.getD "") ++ ":" ++ "0")) ∧
    (∀ (a : String) (m₀ : GeweInboundMessage)
        (rest : List (GeweInboundMessage × Nat)) (t₀ : Nat) (s₀ : SeenMap),
      m₀.appId = a → m₀.newMessageId = "0" → isSelfMessage m₀ = false →
      (∀ q ∈ rest, q.1.appId = a ∧ q.1.newMessageId = "0" ∧
        isSelfMessage q.1 = false ∧ q.2 - t₀ ≤ DEDUPE_TTL_MS) →
      seenHas (cleanupSeen t₀ s₀) (a ++ ":" ++ "0") = false →
      (runOnMessages ((m₀, t₀) :: rest) s₀).1 =
        OnMessageOutcome.invoked ::
          rest.map (fun _ => OnMessageOutcome.droppedDuplicate)) := by
  constructor
  · intro p data now mt hData hA hW hFrom hTo hMt hMtPos hMsgId hNewId
    have hzero : toString (0 : Int) = "0" := by decide
    constructor
    · simp only [payloadToInboundMessage, hData]
      simp [hA, hW, hFrom, hTo, hMt, hMtPos]
    · simp only [payloadToInboundMessage, hData]
      simp [hA, hW, hFrom, hTo, hMt, hMtPos, hMsgId, hNewId, dedupeKey, hzero]
  · intro a m₀ rest t₀ s₀ hA hN hself hrest hfresh
    have hkey : dedupeKey m₀ = a ++ ":" ++ "0" := by
      rw [dedupeKey, hA, hN]
    have hstep : onMessageStep m₀ t₀ s₀ =
        (.invoked, seenSet (a ++ ":" ++ "0") t₀ (cleanupSeen t₀ s₀)) := by
      simp [onMessageStep, hself, isDuplicate, hkey, hfresh]
    have hmem : (a ++ ":" ++ "0", t₀) ∈
        seenSet (a ++ ":" ++ "0") t₀ (cleanupSeen t₀ s₀) :=
      mem_seenSet _ _ _
    have hdups := runOnMessages_all_dup (a ++ ":" ++ "0") t₀ rest
      (seenSet (a ++ ":" ++ "0") t₀ (cleanupSeen t₀ s₀))
      (by
        intro q hq
        obtain ⟨hqa, hqn, hqs, hqt⟩ := hrest q hq
        exact ⟨by rw [dedupeKey, hqa, hqn], hqs, hqt⟩)
      hmem
    simp [runOnMessages, hstep, hdups]

/-- Witness for C10: a concrete valid payload with neither `MsgId` nor
`NewMsgId` normalizes to a message keyed `app:0`, and a second id-less
message from a different sender in the same app, 5 ms later, is discarded
as a duplicate. -/
theorem claim_C10_witness :
    ((∃ m, payloadToInboundMessage
        { Appid := some "app", Wxid := some "bot",
          Data := some
            { FromUserName := some "u1", ToUserName := some "bot",
              MsgType := some 1, Content := some "hello", MsgId := none,
              NewMsgId := none, CreateTime := none, PushContent := none } }
        777 = some m) ∧
      (payloadToInboundMessage
        { Appid := some "app", Wxid := some "bot",
          Data := some
            { FromUserName := some "u1", ToUserName := some "bot",
              MsgType := some 1, Content := some "hello", MsgId := none,
              NewMsgId := none, CreateTime := none, PushContent := none } }
        777).map (fun m => (m.messageId, m.newMessageId, dedupeKey m)) =
        some ("0", "0",
          strTrim ((some "app" : Option String).getD "") ++ ":" ++ "0")) ∧
    (runOnMessages
        [({ messageId := "0", newMessageId := "0", appId := "app",
            botWxid := "bot", fromId := "u1", toId := "bot",
            senderId := "u1", senderName := none, text := "hello",
            msgType := 1, xml := "hello", timestamp := 777,
            isGroupChat := false }, 0),
         ({ messageId := "0", newMessageId := "0", appId := "app",
            botWxid := "bot", fromId := "u2", toId := "bot",
            senderId := "u2", senderName := none, text := "other",
            msgType := 1, xml := "other", timestamp := 778,
            isGroupChat := false }, 5)] []).1 =
      [OnMessageOutcome.invoked, OnMessageOutcome.droppedDuplicate] := by
  constructor
  · exact claim_C10.1
      { Appid := some "app", Wxid := some "bot",
        Data := some
          { FromUserName := some "u1", ToUserName := some "bot",
            MsgType := some 1, Content := some "hello", MsgId := none,
            NewMsgId := none, CreateTime := none, PushContent := none } }
      { FromUserName := some "u1", ToUserName := some "bot",
        MsgType := some 1, Content := some "hello", MsgId := none,
        NewMsgId := none, CreateTime := none, PushContent := none }
      777 1 rfl (by decide) (by decide) (by decide) (by decide) rfl
      (by decide) rfl rfl
  · have h := claim_C10.2 "app"
      { messageId := "0", newMessageId := "0", appId := "app",
        botWxid := "bot", fromId := "u1", toId := "bot",
        senderId := "u1", senderName := none, text := "hello",
        msgType := 1, xml := "hello", timestamp := 777,
        isGroupChat := false }
      [({ messageId := "0", newMessageId := "0", appId := "app",
          botWxid := "bot", fromId := "u2", toId := "bot",
          senderId := "u2", senderName := none, text := "other",
          msgType := 1, xml := "other", timestamp := 778,
          isGroupChat := false }, 5)]
      0 [] rfl rfl (by decide) (by decide) (by decide)
    exact h.trans (by decide)

/-! ## Lemmas about the download queue -/

theorem seenHas_eq_false_iff {s : SeenMap} {k : String} :
    seenHas s k = false ↔ ∀ e ∈ s, e.1 ≠ k := by
  simp [seenHas, List.any_eq_false]

theorem seenHas_cleanup_false {s : SeenMap} {k : String} {now : Nat}
    (h : seenHas s k = false) : seenHas (cleanupSeen now s) k = false := by
  rw [seenHas_eq_false_iff] at h ⊢
  intro e he
  exact h e (mem_cleanupSeen.mp he).1

theorem seenHas_seenSet_ne {k k' : String} (hne : k ≠ k') (v : Nat) :
    ∀ s : SeenMap, seenHas (seenSet k' v s) k = seenHas s k
  | [] => by
    simp [seenSet, seenHas]
    exact fun h => absurd h.symm hne
  | e :: t => by
    simp only [seenSet]
    by_cases h : e.1 == k'
    · have he : e.1 = k' := by simpa using h
      simp only [h, if_true, seenHas, List.any_cons]
      have h1 : (k' == k) = false := by
        simp
        exact fun hh => absurd hh.symm hne
      have h2 : (e.1 == k) = false := by
        simp [he]
        exact fun hh => absurd hh.symm hne
      rw [h1, h2]
    · simp only [h, Bool.false_eq_true, if_false, seenHas, List.any_cons]
      have ih := seenHas_seenSet_ne hne v t
      simp only [seenHas] at ih
      rw [ih]

theorem dqEnqueueAll_queue :
    ∀ (js : List (GeweDownloadJob × Nat)) (s : DQState),
      (js.map (fun q => q.1.key)).Nodup →
      (∀ q ∈ js, seenHas s.seen q.1.key = false) →
      (dqEnqueueAll js s).queue = s.queue ++ js.map (fun q => q.1)
  | [], s, _, _ => by simp [dqEnqueueAll]
  | (j, t) :: rest, s, hnd, hfresh => by
    have hj : seenHas s.seen j.key = false :=
      hfresh (j, t) (List.mem_cons_self _ _)
    have hj' : seenHas (cleanupSeen t s.seen) j.key = false :=
      seenHas_cleanup_false hj
    have hstep : dqEnqueue t j s =
        (true,
          { s with
            seen := seenSet j.key t (cleanupSeen t s.seen)
            queue := s.queue ++ [j] }) := by
      simp [dqEnqueue, dqCleanup, hj']
    have hnd' := hnd
    simp only [List.map_cons, List.nodup_cons] at hnd'
    obtain ⟨hjne, hndrest⟩ := hnd'
    have hfresh' : ∀ q ∈ rest,
        seenHas (seenSet j.key t (cleanupSeen t s.seen)) q.1.key = false := by
      intro q hq
      have hne : q.1.key ≠ j.key := by
        intro hcontra
        exact hjne (by
          rw [← hcontra]
          exact List.mem_map.mpr ⟨q, hq, rfl⟩)
      rw [seenHas_seenSet_ne hne]
      exact seenHas_cleanup_false (hfresh q (List.mem_cons_of_mem _ hq))
    have ih := dqEnqueueAll_queue rest
      { s with
        seen := seenSet j.key t (cleanupSeen t s.seen)
        queue := s.queue ++ [j] }
      hndrest hfresh'
    simp only [dqEnqueueAll, hstep]
    simp only [ih, List.map_cons]
    simp [List.append_assoc]

theorem dqDrain_jobs (minD maxD : Int) :
    ∀ (queue : List GeweDownloadJob) (rands : List ℚ),
      (dqDrainAux minD maxD queue rands).map (fun e => e.2) = queue
  | [], _ => rfl
  | j :: rest, rands => by
    simp only [dqDrainAux, List.map_cons]
    rw [dqDrain_jobs minD maxD rest rands.tail]

theorem floorDelay_bounds {lo hi : Int} (r : ℚ) (h0 : 0 ≤ r) (h1 : r < 1)
    (hlt : lo < hi) :
    lo ≤ ⌊r * ((hi : ℚ) - (lo : ℚ) + 1)⌋ + lo ∧
    ⌊r * ((hi : ℚ) - (lo : ℚ) + 1)⌋ + lo ≤ hi := by
  have hcast : (lo : ℚ) < (hi : ℚ) := by exact_mod_cast hlt
  have hn : (0 : ℚ) < (hi : ℚ) - (lo : ℚ) + 1 := by linarith
  have hfl0 : (0 : Int) ≤ ⌊r * ((hi : ℚ) - (lo : ℚ) + 1)⌋ := by
    apply Int.le_floor.mpr
    push_cast
    exact mul_nonneg h0 (le_of_lt hn)
  have hflu : ⌊r * ((hi : ℚ) - (lo : ℚ) + 1)⌋ < hi - lo + 1 := by
    apply Int.floor_lt.mpr
    push_cast
    have hmul := mul_lt_mul_of_pos_right h1 hn
    rw [one_mul] at hmul
    linarith
  omega

theorem nextDelayMs_bounds (minD maxD : Int) (r : ℚ) (h0 : 0 ≤ r) (h1 : r < 1) :
    max 0 minD ≤ nextDelayMs minD maxD r ∧
    nextDelayMs minD maxD r ≤ max (max 0 minD) maxD := by
  have hle : max 0 minD ≤ max (max 0 minD) maxD := le_max_left _ _
  by_cases heq : max (max 0 minD) maxD = max 0 minD
  · have hd : nextDelayMs minD maxD r = max 0 minD := by
      simp only [nextDelayMs]
      rw [if_pos heq]
    rw [hd]
    exact ⟨le_refl _, hle⟩
  · have hlt : max 0 minD < max (max 0 minD) maxD :=
      lt_of_le_of_ne hle (fun h => heq h.symm)
    have hd : nextDelayMs minD maxD r =
        ⌊r * (((max (max 0 minD) maxD : Int) : ℚ) - ((max 0 minD : Int) : ℚ) + 1)⌋ +
          max 0 minD := by
      simp only [nextDelayMs]
      rw [if_neg heq]
    rw [hd]
    exact floorDelay_bounds r h0 h1 hlt

/-- **C2 counterexample.**  With both configured delays negative
(`minDelayMs = -2`, `maxDelayMs = -1`), `nextDelayMs` yields `0`, which
exceeds the claimed upper bound `max(minDelayMs, maxDelayMs) = -1`: the
claimed delay interval is wrong for such configurations. -/
theorem claim_C2_counterexample :
    nextDelayMs (-2) (-1) 0 = 0 ∧
    ¬(nextDelayMs (-2) (-1) 0 ≤ max (-2 : Int) (-1)) := by
  exact ⟨by decide, by decide⟩

/-- **C2 (amended).**  Download queue: `enqueue` returns `false` and leaves
the queue unchanged (only purging the dedupe map) whenever the key was
enqueued within the last 12 hours; sequential enqueues with fresh distinct
keys append in FIFO order, and the worker executes exactly the queued jobs
in that order; each execution is preceded by a delay `d` with
`max(0, minDelayMs) ≤ d ≤ max(max(0, minDelayMs), maxDelayMs)` — the upper
bound is the `0`-clamped minimum joined with `maxDelayMs`, not
`max(minDelayMs, maxDelayMs)`. -/
theorem claim_C2 :
    (∀ (now : Nat) (job : GeweDownloadJob) (s : DQState) (ts : Nat),
      (job.key, ts) ∈ s.seen → now - ts ≤ DEDUPE_TTL_MS →
      dqEnqueue now job s = (false, dqCleanup now s)) ∧
    (∀ (js : List (GeweDownloadJob × Nat)) (s : DQState),
      (js.map (fun q => q.1.key)).Nodup →
      (∀ q ∈ js, seenHas s.seen q.1.key = false) →
      (dqEnqueueAll js s).queue = s.queue ++ js.map (fun q => q.1)) ∧
    (∀ (minD maxD : Int) (queue : List GeweDownloadJob) (rands : List ℚ),
      (dqDrainAux minD maxD queue rands).map (fun e => e.2) = queue) ∧
    (∀ (minD maxD : Int) (r : ℚ), 0 ≤ r → r < 1 →
      max 0 minD ≤ nextDelayMs minD maxD r ∧
      nextDelayMs minD maxD r ≤ max (max 0 minD) maxD) := by
  refine ⟨?_, dqEnqueueAll_queue, dqDrain_jobs, nextDelayMs_bounds⟩
  intro now job s ts hmem httl
  have hhas : seenHas (cleanupSeen now s.seen) job.key = true :=
    seenHas_of_mem (mem_cleanupSeen.mpr ⟨hmem, httl⟩)
  simp [dqEnqueue, dqCleanup, hhas]

/-- Witness for C2 (amended): a key enqueued 10 ms ago is rejected; three
fresh jobs enqueue and drain in FIFO order; the default 3000/10000 delay
range bounds a concrete draw. -/
theorem claim_C2_witness :
    (dqEnqueue 20 { key := "k", id := 5 }
        { queue := [], seen := [("k", 10)], minDelayMs := 3000,
          maxDelayMs := 10000 } =
      (false, dqCleanup 20
        { queue := [], seen := [("k", 10)], minDelayMs := 3000,
          maxDelayMs := 10000 })) ∧
    ((dqEnqueueAll
        [({ key := "a", id := 1 }, 0), ({ key := "b", id := 2 }, 1),
         ({ key := "c", id := 3 }, 2)]
        { queue := [], seen := [], minDelayMs := 3000,
          maxDelayMs := 10000 }).queue =
      [{ key := "a", id := 1 }, { key := "b", id := 2 },
       { key := "c", id := 3 }]) ∧
    (3000 ≤ nextDelayMs 3000 10000 (1 / 2) ∧
      nextDelayMs 3000 10000 (1 / 2) ≤ 10000) := by
  refine ⟨?_, ?_, ?_⟩
  · exact claim_C2.1 20 { key := "k", id := 5 }
      { queue := [], seen := [("k", 10)], minDelayMs := 3000,
        maxDelayMs := 10000 } 10 (by decide) (by decide)
  · have h := claim_C2.2.1
      [({ key := "a", id := 1 }, 0), ({ key := "b", id := 2 }, 1),
       ({ key := "c", id := 3 }, 2)]
      { queue := [], seen := [], minDelayMs := 3000, maxDelayMs := 10000 }
      (by decide) (by decide)
    exact h.trans (by decide)
  · have h := claim_C2.2.2.2 3000 10000 (1 / 2) (by norm_num) (by norm_num)
    constructor
    · exact le_trans (by decide) h.1
    · exact le_trans h.2 (by decide)

/-! ## Lemmas about the group sender policy -/

/-- The src call site of the sdk decision function loses the distinction
between "both allowlists configured, sender matched the outer one only" and
"only the inner allowlist configured, sender matched nothing": the two
situations produce identical `NestedAllowlistParams`, so **no** boolean
implementation of `resolveNestedAllowlistDecision` can realize OR semantics
for both. -/
theorem nestedDecision_args_collision (f : NestedAllowlistParams → Bool) :
    (resolveGeweGroupAllowWith f "allowlist" (some ["alice"]) (some ["bob"])
        "alice" none).allowed =
      (resolveGeweGroupAllowWith f "allowlist" none (some ["bob"])
        "zed" none).allowed := by
  rfl

/-- **C3 counterexample.**  In `allowlist` mode with outer allowlist
`["alice"]` and inner allowlist `["bob"]`, sender `alice` matches the outer
allow set (so OR semantics would allow) yet `resolveGeweGroupAllow` denies. -/
theorem claim_C3_counterexample :
    (resolveGeweGroupAllow "allowlist" (some ["alice"]) (some ["bob"])
        "alice" none).allowed = false ∧
    ((resolveGeweAllowlistMatch (some ["alice"]) "alice" none).allowed ||
      (resolveGeweAllowlistMatch (some ["bob"]) "alice" none).allowed) = true := by
  exact ⟨by decide, by decide⟩

/-- **C3 (amended).**  Group sender policy: `disabled` always denies and
`open` always allows regardless of allowlists; in `allowlist` mode the
sender is denied when both the outer and inner allowlists are empty, and
otherwise allowed exactly when every **configured** (non-empty) allowlist
matches the sender: an empty level imposes nothing, but when both levels
are non-empty the outer and inner matches combine with AND (not OR)
semantics. -/
theorem claim_C3 (outer inner : Option (List String)) (sid : String)
    (sname : Option String) :
    (resolveGeweGroupAllow "disabled" outer inner sid sname).allowed = false ∧
    (resolveGeweGroupAllow "open" outer inner sid sname).allowed = true ∧
    (normalizeGeweAllowlist outer = [] → normalizeGeweAllowlist inner = [] →
      (resolveGeweGroupAllow "allowlist" outer inner sid sname).allowed = false) ∧
    (¬(normalizeGeweAllowlist outer = [] ∧ normalizeGeweAllowlist inner = []) →
      (resolveGeweGroupAllow "allowlist" outer inner sid sname).allowed =
        (((normalizeGeweAllowlist outer).isEmpty ||
            (resolveGeweAllowlistMatch outer sid sname).allowed) &&
          ((normalizeGeweAllowlist inner).isEmpty ||
            (resolveGeweAllowlistMatch inner sid sname).allowed))) := by
  refine ⟨?_, ?_, ?_, ?_⟩
  · simp [resolveGeweGroupAllow, resolveGeweGroupAllowWith]
  · simp [resolveGeweGroupAllow, resolveGeweGroupAllowWith]
  · intro ho hi
    simp [resolveGeweGroupAllow, resolveGeweGroupAllowWith, ho, hi]
  · intro h
    rcases ho : normalizeGeweAllowlist outer with _ | ⟨x, xs⟩ <;>
      rcases hi : normalizeGeweAllowlist inner with _ | ⟨y, ys⟩
    · exact absurd ⟨ho, hi⟩ h
    all_goals
      simp [resolveGeweGroupAllow, resolveGeweGroupAllowWith,
        resolveNestedAllowlistDecision, ho, hi]

/-- Witness for C3 (amended): with only the outer allowlist configured
(`["alice"]`), sender `alice` is allowed in `allowlist` mode. -/
theorem claim_C3_witness :
    ¬(normalizeGeweAllowlist (some ["alice"]) = [] ∧
        normalizeGeweAllowlist none = []) ∧
    (resolveGeweGroupAllow "allowlist" (some ["alice"]) none
        "alice" none).allowed =
      (((normalizeGeweAllowlist (some ["alice"])).isEmpty ||
          (resolveGeweAllowlistMatch (some ["alice"]) "alice" none).allowed) &&
        ((normalizeGeweAllowlist none).isEmpty ||
          (resolveGeweAllowlistMatch none "alice" none).allowed)) :=
  ⟨by decide, (claim_C3 (some ["alice"]) none "alice" none).2.2.2 (by decide)⟩

/-! ## Silk detection -/

/-- **C4 counterexample.**  An empty (0-byte, hence fewer-than-9-byte)
buffer **is** classified as silk when the declared content type contains
`silk`: the "never classified" half of the claim fails in the presence of a
hint. -/
theorem claim_C4_counterexample :
    looksLikeSilkVoice [] (some "audio/silk") none = true ∧
    ([] : List Nat).length < 9 := by
  exact ⟨by decide, by decide⟩

/-- **C4 (amended).**  A buffer whose first 9 bytes are the `#!SILK_V3`
magic is always classified as silk (in particular with no content-type or
filename hint), and a buffer of fewer than 9 bytes is never classified as
silk **when neither the content type nor the filename carries a silk hint**
(content type containing `silk`, or filename ending in `.silk`). -/
theorem claim_C4 (buffer : List Nat) (ct fn : Option String) :
    (buffer.take 9 = silkMagicBytes → looksLikeSilkVoice buffer ct fn = true) ∧
    (strContains (strToLower (ct.getD "")) "silk" = false →
      strEndsWith (strToLower (fn.getD "")) ".silk" = false →
      buffer.length < 9 →
      looksLikeSilkVoice buffer ct fn = false) := by
  have h9 : SILK_HEADER.length = 9 := by decide
  constructor
  · intro htake
    have hlen : 9 ≤ buffer.length := by
      have hl := congrArg List.length htake
      simp only [List.length_take, silkMagicBytes] at hl
      simp at hl
      omega
    by_cases hct : strContains (strToLower (ct.getD "")) "silk"
    · simp [looksLikeSilkVoice, hct]
    · by_cases hfn : strEndsWith (strToLower (fn.getD "")) ".silk"
      · simp [looksLikeSilkVoice, hct, hfn]
      · have hnl : ¬(buffer.length < SILK_HEADER.length) := by omega
        simp [looksLikeSilkVoice, hct, hfn, hnl, h9, htake]
        omega
  · intro hct hfn hlen
    have hl : buffer.length < SILK_HEADER.length := by omega
    simp [looksLikeSilkVoice, hct, hfn, hl]

/-- Witness for C4 (amended): the exact 9-byte magic buffer is detected
without hints, and a 2-byte hint-less buffer is not. -/
theorem claim_C4_witness :
    (([35, 33, 83, 73, 76, 75, 95, 86, 51] : List Nat).take 9 =
        silkMagicBytes ∧
      looksLikeSilkVoice [35, 33, 83, 73, 76, 75, 95, 86, 51] none none =
        true) ∧
    (strContains (strToLower ((none : Option String).getD "")) "silk" = false ∧
      strEndsWith (strToLower ((none : Option String).getD "")) ".silk" = false ∧
      ([1, 2] : List Nat).length < 9 ∧
      looksLikeSilkVoice [1, 2] none none = false) := by
  refine ⟨⟨by decide, ?_⟩, ⟨by decide, by decide, by decide, ?_⟩⟩
  · exact (claim_C4 [35, 33, 83, 73, 76, 75, 95, 86, 51] none none).1 (by decide)
  · exact (claim_C4 [1, 2] none none).2 (by decide) (by decide) (by decide)

/-! ## Thumbnail normalization -/

theorem thumbLoop_eq_find (resize : List Nat → Nat → Nat → List Nat) :
    ∀ (pairs : List (Nat × Nat)) (working : List Nat),
      thumbLoop resize working pairs =
        ((thumbAttempts resize working pairs).find?
            (fun b => b.length ≤ LINK_THUMB_MAX_BYTES)).getD
          ((thumbAttempts resize working pairs).getLastD working)
  | [], working => rfl
  | (side, q) :: rest, working => by
    simp only [thumbLoop, thumbAttempts]
    by_cases hfit : (resize working side q).length ≤ LINK_THUMB_MAX_BYTES
    · simp [hfit, List.find?]
    · have ih := thumbLoop_eq_find resize rest (resize working side q)
      simp only [hfit, if_false]
      rw [ih]
      simp only [List.find?]
      have hfit' : ((resize working side q).length ≤ LINK_THUMB_MAX_BYTES : Bool)
          = false := by simpa using hfit
      rw [hfit']
      rw [List.getLastD_cons]

/-- **C5 counterexample.**  A 1-byte buffer declared `image/png` passes
through `normalizeThumbBuffer` unchanged — the result is not JPEG-encoded
(content type stays `image/png`), contradicting the claim that every
returned buffer is a JPEG (either one within 50KB or the most-compressed
attempt, both of which are JPEG re-encodes). -/
theorem claim_C5_counterexample :
    normalizeThumbBuffer (fun _ _ _ => [1, 2]) [0] (some "image/png") =
      ([0], "image/png") ∧
    ("image/png" : String) ≠ "image/jpeg" := by
  exact ⟨by decide, by decide⟩

/-- **C5 (amended).**  `normalizeThumbBuffer` returns the input unchanged,
with its declared content type, when it is already at most 50KB and
declares an `image/*` content type; otherwise it runs the resize loop over
maximum sides 320, 240, 200, 160 crossed with qualities 80, 70, 60, 50, 40
(each attempt re-encoding the previous attempt's output) and returns, as
`image/jpeg`, the first attempt of at most 50KB — or the final attempt when
none fits. -/
theorem claim_C5 (resize : List Nat → Nat → Nat → List Nat) (buffer : List Nat)
    (ct : Option String) :
    (∀ c, ct.map splitContentType = some c →
      buffer.length ≤ LINK_THUMB_MAX_BYTES → c ≠ "" →
      strStartsWith c "image/" = true →
      normalizeThumbBuffer resize buffer ct = (buffer, c)) ∧
    (((buffer.length ≤ LINK_THUMB_MAX_BYTES &&
        (match ct.map splitContentType with
         | some c => c ≠ "" && strStartsWith c "image/"
         | none => false)) = false) →
      normalizeThumbBuffer resize buffer ct =
        (((thumbAttempts resize buffer thumbPairs).find?
              (fun b => b.length ≤ LINK_THUMB_MAX_BYTES)).getD
            ((thumbAttempts resize buffer thumbPairs).getLastD buffer),
          "image/jpeg")) := by
  constructor
  · intro c hc hlen hne hst
    simp [normalizeThumbBuffer, hc, hlen, hne, hst]
  · intro h
    simp only [normalizeThumbBuffer, h]
    simp [thumbLoop_eq_find]

/-- Witness for C5 (amended): a small declared PNG passes through; a
hint-less buffer goes through the resize loop. -/
theorem claim_C5_witness :
    ((some "image/png" : Option String).map splitContentType =
        some "image/png" ∧
      normalizeThumbBuffer (fun _ _ _ => [1, 2]) [0] (some "image/png") =
        ([0], "image/png")) ∧
    (normalizeThumbBuffer (fun _ _ _ => [1, 2]) [0] none =
      (((thumbAttempts (fun _ _ _ => [1, 2]) [0] thumbPairs).find?
            (fun b => b.length ≤ LINK_THUMB_MAX_BYTES)).getD
          ((thumbAttempts (fun _ _ _ => [1, 2]) [0] thumbPairs).getLastD [0]),
        "image/jpeg")) := by
  refine ⟨⟨by decide, ?_⟩, ?_⟩
  · exact (claim_C5 (fun _ _ _ => [1, 2]) [0] (some "image/png")).1
      "image/png" (by decide) (by decide) (by decide) (by decide)
  · exact (claim_C5 (fun _ _ _ => [1, 2]) [0] none).2 (by decide)

/-! ## Installer single-flight lemmas -/

theorem alistGet_set_self {α : Type} (k : String) (v : α) :
    ∀ l : List (String × α), alistGet (alistSet k v l) k = some v
  | [] => by simp [alistSet, alistGet, List.find?]
  | e :: t => by
    simp only [alistSet]
    by_cases h : e.1 == k
    · simp [h, alistGet, List.find?]
    · simp only [h, Bool.false_eq_true, if_false]
      simp only [alistGet, List.find?, h]
      exact alistGet_set_self k v t

theorem mem_keys_alistSet {α : Type} {x k : String} {v : α} :
    ∀ {l : List (String × α)},
      x ∈ (alistSet k v l).map Prod.fst → x ∈ l.map Prod.fst ∨ x = k
  | [], h => by
    simp [alistSet] at h
    exact Or.inr h
  | e :: t, h => by
    simp only [alistSet] at h
    by_cases he : e.1 == k
    · simp only [he, if_true, List.map_cons, List.mem_cons] at h
      rcases h with h | h
      · exact Or.inr h
      · exact Or.inl (by
          simp only [List.map_cons, List.mem_cons]
          exact Or.inr h)
    · simp only [he, Bool.false_eq_true, if_false, List.map_cons,
        List.mem_cons] at h
      rcases h with h | h
      · exact Or.inl (by
          simp only [List.map_cons, List.mem_cons]
          exact Or.inl h)
      · rcases mem_keys_alistSet h with h' | h'
        · exact Or.inl (by
            simp only [List.map_cons, List.mem_cons]
            exact Or.inr h')
        · exact Or.inr h'

theorem nodup_alistSet {α : Type} (k : String) (v : α) :
    ∀ l : List (String × α), (l.map Prod.fst).Nodup →
      ((alistSet k v l).map Prod.fst).Nodup
  | [], _ => by simp [alistSet]
  | e :: t, h => by
    simp only [List.map_cons, List.nodup_cons] at h
    obtain ⟨hnotin, hnd⟩ := h
    simp only [alistSet]
    by_cases he : e.1 == k
    · have he' : e.1 = k := by simpa using he
      simp only [he, if_true, List.map_cons, List.nodup_cons]
      exact ⟨by rw [← he']; exact hnotin, hnd⟩
    · have he' : e.1 ≠ k := by simpa using he
      simp only [he, Bool.false_eq_true, if_false, List.map_cons,
        List.nodup_cons]
      refine ⟨?_, nodup_alistSet k v t hnd⟩
      intro hcontra
      rcases mem_keys_alistSet hcontra with h' | h'
      · exact hnotin h'
      · exact he' h'

theorem nodup_alistRemove {α : Type} (k : String) (l : List (String × α))
    (h : (l.map Prod.fst).Nodup) : ((alistRemove k l).map Prod.fst).Nodup :=
  ((List.filter_sublist l).map Prod.fst).nodup h

theorem filterKey_length_le_one {α : Type} (k : String) :
    ∀ l : List (String × α), (l.map Prod.fst).Nodup →
      (l.filter (fun e => e.1 == k)).length ≤ 1
  | [], _ => by simp
  | e :: t, h => by
    simp only [List.map_cons, List.nodup_cons] at h
    obtain ⟨hnotin, hnd⟩ := h
    simp only [List.filter]
    by_cases he : e.1 == k
    · have he' : e.1 = k := by simpa using he
      have hrest : t.filter (fun e => e.1 == k) = [] := by
        apply List.filter_eq_nil_iff.mpr
        intro x hx hxk'
        have hxk : x.1 = k := by simpa using hxk'
        exact hnotin (by
          rw [he', ← hxk]
          exact List.mem_map.mpr ⟨x, hx, rfl⟩)
      rw [he, hrest]
      simp
    · have heb : (e.1 == k) = false := by simpa using he
      rw [heb]
      exact filterKey_length_le_one k t hnd

/-- The in-flight promise map never holds two entries for a key: key
uniqueness of `installCache` is preserved by every installer event. -/
theorem installCache_keys_nodup_step (s : InstallerState) (ev : InstallerEvent)
    (h : (s.installCache.map Prod.fst).Nodup) :
    ((installerStep s ev).installCache.map Prod.fst).Nodup := by
  cases ev with
  | call k =>
    simp only [installerStep, ensureRustSilkBinaryStep]
    cases hres : alistGet s.resolvedPathCache k with
    | some r => exact h
    | none =>
      cases hin : alistGet s.installCache k with
      | some t => exact h
      | none => exact nodup_alistSet k s.nextTaskId s.installCache h
  | complete k r =>
    simp only [installerStep]
    by_cases hin : (alistGet s.installCache k).isSome
    · simp only [hin, if_true, completeInstall]
      exact nodup_alistRemove k s.installCache h
    · simp only [hin, Bool.false_eq_true, if_false]
      exact h

theorem installCache_keys_nodup :
    ∀ (evs : List InstallerEvent) (s : InstallerState),
      (s.installCache.map Prod.fst).Nodup →
      ((evs.foldl installerStep s).installCache.map Prod.fst).Nodup
  | [], _, h => h
  | ev :: rest, s, h =>
    installCache_keys_nodup rest (installerStep s ev)
      (installCache_keys_nodup_step s ev h)

/-- **C7.**  Installer single-flight and memoization for a resolved install
cache key: a call finding a completed result returns it without touching
state; a call finding an in-flight task joins it (same result task, no new
download, state unchanged); two calls for the same key from a clean state
start exactly one download, the second joining the first's task; across any
event trace at most one install per key is in flight; and after a
completion every call returns the cached result without reinstalling. -/
theorem claim_C7 :
    (∀ (s : InstallerState) (k : String) (r : Option String),
      alistGet s.resolvedPathCache k = some r →
      ensureRustSilkBinaryStep k s = (.cached r, s)) ∧
    (∀ (s : InstallerState) (k : String) (t : Nat),
      alistGet s.resolvedPathCache k = none →
      alistGet s.installCache k = some t →
      ensureRustSilkBinaryStep k s = (.joined t, s)) ∧
    (∀ k : String,
      (ensureRustSilkBinaryStep k initInstaller).1 = .started 0 ∧
      (ensureRustSilkBinaryStep k
        (ensureRustSilkBinaryStep k initInstaller).2).1 = .joined 0 ∧
      startedCount
        (ensureRustSilkBinaryStep k
          (ensureRustSilkBinaryStep k initInstaller).2).2 k = 1) ∧
    (∀ (evs : List InstallerEvent) (k : String),
      inFlightCount (runInstaller evs) k ≤ 1) ∧
    (∀ (s : InstallerState) (k : String) (r : Option String),
      ensureRustSilkBinaryStep k (completeInstall k r s) =
        (.cached r, completeInstall k r s)) := by
  refine ⟨?_, ?_, ?_, ?_, ?_⟩
  · intro s k r h
    simp [ensureRustSilkBinaryStep, h]
  · intro s k t h1 h2
    simp [ensureRustSilkBinaryStep, h1, h2]
  · intro k
    have h1 : ensureRustSilkBinaryStep k initInstaller =
        (.started 0,
          { resolvedPathCache := [], installCache := [(k, 0)],
            nextTaskId := 1, started := [(k, 1)] }) := by
      simp [ensureRustSilkBinaryStep, initInstaller, alistGet, alistSet,
        startedCount, List.find?]
    rw [h1]
    have h2 : ensureRustSilkBinaryStep k
        ({ resolvedPathCache := [], installCache := [(k, 0)],
           nextTaskId := 1, started := [(k, 1)] } : InstallerState) =
        (.joined 0,
          { resolvedPathCache := [], installCache := [(k, 0)],
            nextTaskId := 1, started := [(k, 1)] }) := by
      simp [ensureRustSilkBinaryStep, alistGet, List.find?]
    rw [h2]
    refine ⟨rfl, rfl, ?_⟩
    simp [startedCount, alistGet, List.find?]
  · intro evs k
    exact filterKey_length_le_one k _
      (installCache_keys_nodup evs initInstaller (by simp [initInstaller]))
  · intro s k r
    have h : alistGet (completeInstall k r s).resolvedPathCache k = some r :=
      alistGet_set_self k r s.resolvedPathCache
    simp [ensureRustSilkBinaryStep, h]

/-- Witness for C7: concrete cache states exercise the completed-result
path and the joined-in-flight path. -/
theorem claim_C7_witness :
    (alistGet
        ({ resolvedPathCache := [("key", some "/tools/rust-silk")],
           installCache := [], nextTaskId := 1,
           started := [("key", 1)] } : InstallerState).resolvedPathCache
        "key" = some (some "/tools/rust-silk") ∧
      ensureRustSilkBinaryStep "key"
        { resolvedPathCache := [("key", some "/tools/rust-silk")],
          installCache := [], nextTaskId := 1, started := [("key", 1)] } =
        (.cached (some "/tools/rust-silk"),
          { resolvedPathCache := [("key", some "/tools/rust-silk")],
            installCache := [], nextTaskId := 1,
            started := [("key", 1)] })) ∧
    (ensureRustSilkBinaryStep "key"
        { resolvedPathCache := [], installCache := [("key", 3)],
          nextTaskId := 4, started := [("key", 1)] } =
      (.joined 3,
        { resolvedPathCache := [], installCache := [("key", 3)],
          nextTaskId := 4, started := [("key", 1)] })) := by
  refine ⟨⟨by decide, ?_⟩, ?_⟩
  · exact claim_C7.1
      { resolvedPathCache := [("key", some "/tools/rust-silk")],
        installCache := [], nextTaskId := 1, started := [("key", 1)] }
      "key" (some "/tools/rust-silk") (by decide)
  · exact claim_C7.2.1
      { resolvedPathCache := [], installCache := [("key", 3)],
        nextTaskId := 4, started := [("key", 1)] }
      "key" 3 (by decide) (by decide)

/-! ## Installer error handling -/

theorem attempt_error_of_download {cfg : SilkInstallConfig} {w : InstallWorld}
    {e : String} (hd : w.downloadResult = .error e) :
    ∃ e', installRustSilkAttempt cfg w = .error e' :=
  ⟨e, by simp [installRustSilkAttempt, hd]⟩

theorem attempt_error_of_missing_checksum {cfg : SilkInstallConfig}
    {w : InstallWorld} (h1 : resolveChecksum cfg w = none)
    (h2 : cfg.silkAllowUnverified ≠ some true) :
    ∃ e', installRustSilkAttempt cfg w = .error e' := by
  cases hd : w.downloadResult with
  | error e => exact attempt_error_of_download hd
  | ok u =>
    cases u
    exact ⟨"missing checksum for rust-silk download",
      by simp [installRustSilkAttempt, hd, h1, h2]⟩

theorem attempt_error_of_mismatch {cfg : SilkInstallConfig} {w : InstallWorld}
    {h a : String} (hh : resolveChecksum cfg w = some h)
    (hs : w.sha256Result = .ok a) (hne : a ≠ h) :
    ∃ e', installRustSilkAttempt cfg w = .error e' := by
  cases hd : w.downloadResult with
  | error e => exact attempt_error_of_download hd
  | ok u =>
    cases u
    exact ⟨"checksum mismatch",
      by simp [installRustSilkAttempt, hd, hh, hs, hne]⟩

theorem attempt_error_of_extract {cfg : SilkInstallConfig} {w : InstallWorld}
    {e : String} (he : w.extractResult = .error e) :
    ∃ e', installRustSilkAttempt cfg w = .error e' := by
  cases hd : w.downloadResult with
  | error e' => exact attempt_error_of_download hd
  | ok u =>
    cases u
    cases hh : resolveChecksum cfg w with
    | none =>
      by_cases h2 : cfg.silkAllowUnverified = some true
      · exact ⟨e, by simp [installRustSilkAttempt, hd, hh, h2, he]⟩
      · exact ⟨"missing checksum for rust-silk download",
          by simp [installRustSilkAttempt, hd, hh, h2]⟩
    | some hsh =>
      cases hs : w.sha256Result with
      | error e'' => exact ⟨e'', by simp [installRustSilkAttempt, hd, hh, hs]⟩
      | ok a =>
        by_cases ha : a = hsh
        · exact ⟨e, by simp [installRustSilkAttempt, hd, hh, hs, ha, he]⟩
        · exact ⟨"checksum mismatch",
            by simp [installRustSilkAttempt, hd, hh, hs, ha]⟩

theorem attempt_error_of_no_binary {cfg : SilkInstallConfig} {w : InstallWorld}
    (hf : w.findBinaryResult = .ok none) :
    ∃ e', installRustSilkAttempt cfg w = .error e' := by
  cases hd : w.downloadResult with
  | error e' => exact attempt_error_of_download hd
  | ok u =>
    cases u
    cases hx : w.extractResult with
    | error e' => exact attempt_error_of_extract hx
    | ok v =>
      cases v
      cases hh : resolveChecksum cfg w with
      | none =>
        by_cases h2 : cfg.silkAllowUnverified = some true
        · exact ⟨"rust-silk binary not found",
            by simp [installRustSilkAttempt, hd, hh, h2, hx, hf]⟩
        · exact ⟨"missing checksum for rust-silk download",
            by simp [installRustSilkAttempt, hd, hh, h2]⟩
      | some hsh =>
        cases hs : w.sha256Result with
        | error e'' => exact ⟨e'', by simp [installRustSilkAttempt, hd, hh, hs]⟩
        | ok a =>
          by_cases ha : a = hsh
          · exact ⟨"rust-silk binary not found",
              by simp [installRustSilkAttempt, hd, hh, hs, ha, hx, hf]⟩
          · exact ⟨"checksum mismatch",
              by simp [installRustSilkAttempt, hd, hh, hs, ha]⟩

/-- **C8 counterexample.**  `fs.mkdtemp` runs before the `try` block, so its
failure propagates out of `installRustSilk` as an exception instead of
yielding the "unavailable" `none` result: the claim that no failure path
ever propagates an exception is false. -/
theorem claim_C8_counterexample :
    installRustSilk
      { silkSha256 := none, silkAllowUnverified := none }
      { binaryExists := false, isLatest := false, folder := "0.2.0",
        assetName := "rust-silk-x86_64-unknown-linux-gnu.tar.xz",
        binaryPath := "/tools/rust-silk/0.2.0/rust-silk",
        cleanupResult := .ok (),
        mkdtempResult := .error "EACCES: mkdtemp failed",
        downloadResult := .ok (), manifestText := none, assetSumText := none,
        sha256Result := .ok "aa", extractResult := .ok (),
        findBinaryResult := .ok (some ()), installWriteResult := .ok () } =
      .error "EACCES: mkdtemp failed" := by
  rfl

/-- **C8 (amended).**  Once the fast path does not apply and the scoped
temporary directory was created (`fs.mkdtemp` succeeded), `installRustSilk`
never propagates an exception: every failure inside the `try` block —
unresolved checksum with verification required, checksum mismatch, download
failure, extraction failure, or binary missing from the archive — is caught
and yields `none` ("tool unavailable").  Exceptions may still propagate
from the two effects outside the `try`: temporary-directory creation and
the fast path's superseded-version cleanup. -/
theorem claim_C8 (cfg : SilkInstallConfig) (w : InstallWorld)
    (hb : w.binaryExists = false) (hm : w.mkdtempResult = .ok ()) :
    (∃ r, installRustSilk cfg w = .ok r) ∧
    (∀ e, w.downloadResult = .error e → installRustSilk cfg w = .ok none) ∧
    (resolveChecksum cfg w = none → cfg.silkAllowUnverified ≠ some true →
      installRustSilk cfg w = .ok none) ∧
    (∀ h a, resolveChecksum cfg w = some h → w.sha256Result = .ok a → a ≠ h →
      installRustSilk cfg w = .ok none) ∧
    (∀ e, w.extractResult = .error e → installRustSilk cfg w = .ok none) ∧
    (w.findBinaryResult = .ok none → installRustSilk cfg w = .ok none) := by
  have hred : ∀ e', installRustSilkAttempt cfg w = .error e' →
      installRustSilk cfg w = .ok none := by
    intro e' hatt
    simp [installRustSilk, hb, hm, hatt]
  refine ⟨?_, ?_, ?_, ?_, ?_, ?_⟩
  · cases hatt : installRustSilkAttempt cfg w with
    | ok r => exact ⟨r, by simp [installRustSilk, hb, hm, hatt]⟩
    | error e => exact ⟨none, hred e hatt⟩
  · intro e hd
    obtain ⟨e', hatt⟩ := @attempt_error_of_download cfg w e hd
    exact hred e' hatt
  · intro h1 h2
    obtain ⟨e', hatt⟩ := attempt_error_of_missing_checksum h1 h2
    exact hred e' hatt
  · intro h a hh hs hne
    obtain ⟨e', hatt⟩ := attempt_error_of_mismatch hh hs hne
    exact hred e' hatt
  · intro e he
    obtain ⟨e', hatt⟩ := @attempt_error_of_extract cfg w e he
    exact hred e' hatt
  · intro hf
    obtain ⟨e', hatt⟩ := @attempt_error_of_no_binary cfg w hf
    exact hred e' hatt

/-- Witness for C8 (amended): with no configured hash, no manifest, no
per-asset checksum file and verification required, a concrete install
returns `none` rather than raising. -/
theorem claim_C8_witness :
    (({ binaryExists := false, isLatest := false, folder := "0.2.0",
        assetName := "rust-silk-x86_64-unknown-linux-gnu.tar.xz",
        binaryPath := "/tools/rust-silk/0.2.0/rust-silk",
        cleanupResult := .ok (), mkdtempResult := .ok (),
        downloadResult := .ok (), manifestText := none, assetSumText := none,
        sha256Result := .ok "aa", extractResult := .ok (),
        findBinaryResult := .ok (some ()),
        installWriteResult := .ok () } : InstallWorld).binaryExists = false) ∧
    (resolveChecksum { silkSha256 := none, silkAllowUnverified := none }
      { binaryExists := false, isLatest := false, folder := "0.2.0",
        assetName := "rust-silk-x86_64-unknown-linux-gnu.tar.xz",
        binaryPath := "/tools/rust-silk/0.2.0/rust-silk",
        cleanupResult := .ok (), mkdtempResult := .ok (),
        downloadResult := .ok (), manifestText := none, assetSumText := none,
        sha256Result := .ok "aa", extractResult := .ok (),
        findBinaryResult := .ok (some ()),
        installWriteResult := .ok () } = none) ∧
    installRustSilk { silkSha256 := none, silkAllowUnverified := none }
      { binaryExists := false, isLatest := false, folder := "0.2.0",
        assetName := "rust-silk-x86_64-unknown-linux-gnu.tar.xz",
        binaryPath := "/tools/rust-silk/0.2.0/rust-silk",
        cleanupResult := .ok (), mkdtempResult := .ok (),
        downloadResult := .ok (), manifestText := none, assetSumText := none,
        sha256Result := .ok "aa", extractResult := .ok (),
        findBinaryResult := .ok (some ()),
        installWriteResult := .ok () } = .ok none := by
  refine ⟨rfl, by decide, ?_⟩
  exact (claim_C8 { silkSha256 := none, silkAllowUnverified := none }
    { binaryExists := false, isLatest := false, folder := "0.2.0",
      assetName := "rust-silk-x86_64-unknown-linux-gnu.tar.xz",
      binaryPath := "/tools/rust-silk/0.2.0/rust-silk",
      cleanupResult := .ok (), mkdtempResult := .ok (),
      downloadResult := .ok (), manifestText := none, assetSumText := none,
      sha256Result := .ok "aa", extractResult := .ok (),
      findBinaryResult := .ok (some ()), installWriteResult := .ok () }
    rfl rfl).2.2.1 (by decide) (by decide)

/-! ## Media endpoint id safety -/

/-- **C9.**  Media endpoint id safety: for a request under the media base
path whose decoded id is empty, contains a path separator (`/` or `\`), or
contains `..`, the server responds with an error status (≥ 400) and streams
no file; for a safe id whose resolved path is not an existing regular file,
a `GET`/`HEAD` request gets exactly a 404 with no file streamed. -/
theorem claim_C9 (decodeURI : String → String) (statIsFile : String → Option Bool)
    (basePath mediaBaseDir method pn : String) :
    (strStartsWith pn (basePath ++ "/") = true →
      isSafeMediaId (decodeURI (pn.drop (basePath.length + 1))) = false →
      (mediaHandler decodeURI statIsFile basePath mediaBaseDir method
          (some pn)).streamed = none ∧
      400 ≤ (mediaHandler decodeURI statIsFile basePath mediaBaseDir method
          (some pn)).status) ∧
    ((method = "GET" ∨ method = "HEAD") →
      strStartsWith pn (basePath ++ "/") = true →
      isSafeMediaId (decodeURI (pn.drop (basePath.length + 1))) = true →
      statIsFile (mediaBaseDir ++ "/" ++ decodeURI
          (pn.drop (basePath.length + 1))) ≠ some true →
      mediaHandler decodeURI statIsFile basePath mediaBaseDir method
          (some pn) = { status := 404, streamed := none }) := by
  constructor
  · intro hpre hid
    by_cases hm : method ≠ "GET" ∧ method ≠ "HEAD"
    · simp [mediaHandler, hm]
    · simp only [mediaHandler, hm, if_false]
      simp [hpre, hid]
  · intro hm hpre hid hstat
    have hm' : ¬(method ≠ "GET" ∧ method ≠ "HEAD") := by
      rcases hm with h | h <;> simp [h]
    simp only [mediaHandler, hm', if_false]
    simp only [hpre, if_true]
    cases hs : statIsFile (mediaBaseDir ++ "/" ++ decodeURI
        (pn.drop (basePath.length + 1))) with
    | none => simp [hid]
    | some b =>
      cases b with
      | false => simp [hid]
      | true => exact absurd hs hstat

/-- Witness for C9: a traversal id under the media path gets a 400 with
nothing streamed, and a safe-but-unknown id gets a 404. -/
theorem claim_C9_witness :
    (strStartsWith "/gewe-media/..secret" ("/gewe-media" ++ "/") = true ∧
      isSafeMediaId (id (("/gewe-media/..secret" : String).drop
        (("/gewe-media" : String).length + 1))) = false ∧
      (mediaHandler id (fun _ => some true) "/gewe-media" "/m" "GET"
          (some "/gewe-media/..secret")).streamed = none ∧
      400 ≤ (mediaHandler id (fun _ => some true) "/gewe-media" "/m" "GET"
          (some "/gewe-media/..secret")).status) ∧
    (mediaHandler id (fun _ => none) "/gewe-media" "/m" "GET"
        (some "/gewe-media/ok.png") = { status := 404, streamed := none }) := by
  constructor
  · refine ⟨by decide, by decide, ?_⟩
    exact (claim_C9 id (fun _ => some true) "/gewe-media" "/m" "GET"
      "/gewe-media/..secret").1 (by decide) (by decide)
  · exact (claim_C9 id (fun _ => none) "/gewe-media" "/m" "GET"
      "/gewe-media/ok.png").2 (Or.inl rfl) (by decide) (by decide)
      (by simp)

end Gewe
